import Mathlib

/-!
Verification of the combined-scraper core of `directionalscalper`
(`src/api/scraper_multi_v3.py`): the funding-rate TTL cache, the
per-symbol retry loop, the fan-out/fan-in symbol analysis, the filtered
views, the oscillator verdict, the spread formula, the cross-exchange
merge, and the publication pipeline of `run_scraper_for_exchange`.

The Python code is shallowly embedded: pure computations become Lean
functions over `ℚ` (Python floats are modelled as exact rationals),
mutable state (the funding cache, the filesystem) is passed explicitly,
exceptions become `Except String`, and `None` becomes `Option.none`.
Candle/row dictionaries are modelled as structures carrying exactly the
fields the embedded operations inspect; fields the operations never read
are irrelevant to the stated properties and are represented abstractly
where needed.
-/

namespace ScraperV3

/-! ### Funding-rate cache (`funding_cache`, `get_cached_funding`, lines 25-144)

The module-level dict `funding_cache` maps a symbol to `(last_fetched, rate)`.
Every `CombinedScraper` instance aliases this single global dict
(`self.funding_cache = funding_cache`), so the cache is keyed by symbol
name alone, with no per-exchange separation.  Times are modelled as
integer seconds; `FUNDING_CACHE_DURATION = timedelta(hours=4)`. -/

/-- The global `funding_cache` dict: symbol name to `(last_fetched, rate)`.
`last_fetched` is a timestamp in seconds, `rate` the cached funding percent. -/
abbrev FundingCache : Type := String → Option (ℤ × ℚ)

/-- `FUNDING_CACHE_DURATION = timedelta(hours=4)`, in seconds. -/
def FUNDING_CACHE_DURATION : ℤ := 14400

/-- Outcome of one `get_cached_funding` call: the returned rate, the cache
state after the call, and whether `self.exchange.get_funding_rate` was hit. -/
structure FundingFetch where
  rate : ℚ
  cache : FundingCache
  fetchedFromExchange : Bool

/-- Embedding of `CombinedScraper.get_cached_funding` (lines 127-144).
`exchangeRate` is the decimal fraction the exchange collaborator would
return for this symbol right now; the code multiplies it by 100.  A cache
hit requires `now - last_fetched < FUNDING_CACHE_DURATION`; otherwise the
exchange is consulted and `(now, rate)` is stored before returning. -/
def get_cached_funding (cache : FundingCache) (symbol : String) (now : ℤ)
    (exchangeRate : ℚ) : FundingFetch :=
  match cache symbol with
  | some (lastFetched, rate) =>
    if now - lastFetched < FUNDING_CACHE_DURATION then
      { rate := rate, cache := cache, fetchedFromExchange := false }
    else
      { rate := exchangeRate * 100
        cache := fun s => if s = symbol then some (now, exchangeRate * 100) else cache s
        fetchedFromExchange := true }
  | none =>
      { rate := exchangeRate * 100
        cache := fun s => if s = symbol then some (now, exchangeRate * 100) else cache s
        fetchedFromExchange := true }

/-! ### Per-symbol retry loop (`retry_analyse_symbol`, lines 527-537)

The Python loop keeps a `retry_count` starting at 0 and runs while
`retry_count < retry_limit`; each iteration calls `analyse_symbol` once,
and on an exception increments the counter, logs, and does `time.sleep(1)`.
When the loop exits it raises `Failed to analyse {symbol} after
{retry_limit} attempts.`.  The embedding indexes attempts from 1 and
records how many analysis calls and how many one-second sleeps happened. -/

/-- Result of `retry_analyse_symbol`: the returned record or the raised
exception, the number of `analyse_symbol` invocations, and the number of
`time.sleep(1)` calls performed. -/
structure RetryResult (α : Type) where
  result : Except String α
  calls : ℕ
  sleeps : ℕ

/-- The body of the `while retry_count < retry_limit` loop: `attempt` is the
1-based index of the next `analyse_symbol` call, and the fuel is
`retry_limit - retry_count`, the number of loop iterations still allowed. -/
def retryAux {α : Type} (analyse : ℕ → Except String α) (symbol : String)
    (retryLimit : ℤ) : ℕ → ℕ → RetryResult α
  | _, 0 =>
      { result := Except.error
          ("Failed to analyse " ++ symbol ++ " after " ++ toString retryLimit ++ " attempts.")
        calls := 0
        sleeps := 0 }
  | attempt, fuel + 1 =>
    match analyse attempt with
    | Except.ok a => { result := Except.ok a, calls := 1, sleeps := 0 }
    | Except.error _ =>
      let r := retryAux analyse symbol retryLimit (attempt + 1) fuel
      { result := r.result, calls := r.calls + 1, sleeps := r.sleeps + 1 }

/-- Embedding of `CombinedScraper.retry_analyse_symbol` (lines 527-537).
`analyse n` is the outcome of the `n`-th call to `self.analyse_symbol`
(1-based).  Since `retry_count` starts at 0, the loop body runs at most
`max retry_limit 0 = retry_limit.toNat` times. -/
def retry_analyse_symbol {α : Type} (analyse : ℕ → Except String α) (symbol : String)
    (retryLimit : ℤ) : RetryResult α :=
  retryAux analyse symbol retryLimit 1 retryLimit.toNat

/-! ### Fan-out/fan-in analysis (`analyse_all_symbols`, lines 539-588)

Each symbol is submitted to a thread pool; `as_completed` collects results,
and a future whose `retry_analyse_symbol` raised is logged and skipped
(`except Exception`), never re-raised.  The collected rows are put in a
DataFrame and sorted by `"1m 1x Volume (USDT)"` then `"5m Spread"`, both
descending.  Concurrency only permutes the completion order, and the final
sort makes the row multiset independent of it, so the fan-out/fan-in is
embedded as a per-symbol `filterMap` followed by the sort. -/

/-- The fields of one `analyse_symbol` row that `analyse_all_symbols` and
the filtered views inspect: the symbol name, the two sort keys, and the
funding column.  The remaining columns of the 23-column row are carried
opaquely by the row record and never read by the embedded operations. -/
structure AnalysisRow where
  asset : String
  vol1m : ℚ
  spread5m : ℚ
  funding : ℚ
  deriving DecidableEq

/-- Row order of `df.sort_values(by=["1m 1x Volume (USDT)", "5m Spread"],
ascending=[False, False])`: volume descending, ties by spread descending. -/
def rowSortLE (a b : AnalysisRow) : Bool :=
  decide (b.vol1m < a.vol1m) || (decide (a.vol1m = b.vol1m) && decide (b.spread5m ≤ a.spread5m))

/-- Embedding of `CombinedScraper.analyse_all_symbols` (lines 539-588):
run the retry loop for every symbol, keep the successful rows (a failed
future is logged and dropped by the `except` branch of the fan-in), then
sort by volume and spread, both descending. -/
def analyse_all_symbols (symbols : List String)
    (analyse : String → ℕ → Except String AnalysisRow) (retryLimit : ℤ) : List AnalysisRow :=
  ((symbols.filterMap
      (fun s => ((retry_analyse_symbol (analyse s) s retryLimit).result).toOption)).mergeSort
    rowSortLE)

/-! ### Filtered views (`filter_df`, lines 159-167)

`filter_df` compares one column against a value with `>`, `<` or `==`;
any other operator is logged (`log.error`) and the function falls through,
returning Python `None`, embedded as `Option.none`.  A pandas column is
embedded as an accessor on the row type. -/

/-- Embedding of `CombinedScraper.filter_df` (lines 159-167).  Returns the
surviving rows, each kept whole (all original columns), or `none` when the
operator is not one of `>`, `<`, `==` (Python returns `None` after logging). -/
def filter_df {α : Type} (rows : List α) (filterCol : α → ℚ) (operator : String)
    (value : ℚ) : Option (List α) :=
  if operator = ">" then some (rows.filter (fun r => decide (value < filterCol r)))
  else if operator = "<" then some (rows.filter (fun r => decide (filterCol r < value)))
  else if operator = "==" then some (rows.filter (fun r => decide (filterCol r = value)))
  else none

/-! ### Oscillator verdict (`get_mfi`, lines 322-352)

The MFI and RSI columns are produced by the external `ta` library (out of
scope per the spec), so each bar carries its already-computed `mfi` and
`rsi` values alongside `open` and `close`.  The embedded part is the
condition evaluation and the backward scan over `df.iloc[-lookback:]`. -/

/-- One row of the `get_mfi` DataFrame after the indicator columns are
computed: the bar's open and close prices and its MFI and RSI values. -/
structure MfiBar where
  openPrice : ℚ
  closePrice : ℚ
  mfi : ℚ
  rsi : ℚ
  deriving DecidableEq

/-- `df['buy_condition']`: MFI < 20, RSI < 35 and a bullish bar (open < close). -/
def buy_condition (b : MfiBar) : Bool :=
  decide (b.mfi < 20) && decide (b.rsi < 35) && decide (b.openPrice < b.closePrice)

/-- `df['sell_condition']`: MFI > 80, RSI > 65 and not a bullish bar. -/
def sell_condition (b : MfiBar) : Bool :=
  decide (b.mfi > 80) && decide (b.rsi > 65) && !(decide (b.openPrice < b.closePrice))

/-- `df.iloc[-lookback:]`: the last `lookback` rows.  Python's `-0` is `0`,
so `lookback = 0` selects the whole frame, not zero rows. -/
def ilocLast {α : Type} (rows : List α) (lookback : ℕ) : List α :=
  if lookback = 0 then rows else rows.drop (rows.length - lookback)

/-- The `for buy, sell in reversed(last_conditions)` loop: first bar whose
buy condition holds wins with `'long'`, else first bar whose sell condition
holds wins with `'short'`, else `'neutral'`. -/
def mfiScan : List MfiBar → String
  | [] => "neutral"
  | b :: rest =>
    if buy_condition b then "long"
    else if sell_condition b then "short"
    else mfiScan rest

/-- Embedding of `CombinedScraper.get_mfi` (lines 322-352): scan the last
`lookback` bars newest-first and return the first verdict found. -/
def get_mfi (bars : List MfiBar) (lookback : ℕ) : String :=
  mfiScan ((ilocLast bars lookback).reverse)

/-! ### Spread (`get_spread`, lines 194-202) -/

/-- The columns of a kline row that `get_spread` reads. -/
structure SpreadCandle where
  high : ℚ
  low : ℚ
  deriving DecidableEq

/-- Round-half-to-even to an integer, the tie-breaking rule of Python's
built-in `round`. -/
def roundHalfEven (q : ℚ) : ℤ :=
  if q - Int.floor q < 1 / 2 then Int.floor q
  else if q - Int.floor q > 1 / 2 then Int.floor q + 1
  else if Int.floor q % 2 = 0 then Int.floor q else Int.floor q + 1

/-- Python `round(x, 4)`: round to four decimal places. -/
def round4 (q : ℚ) : ℚ := (roundHalfEven (q * 10000) : ℚ) / 10000

/-- Embedding of `CombinedScraper.get_spread` (lines 194-202):
`(max(high) - min(low)) / max(high) * 100` rounded to 4 decimals when
`max(high) > 0`, else `0.0`.  On an empty frame pandas yields NaN and
`NaN > 0` is false, so the result is `0.0` there as well. -/
def get_spread (data : List SpreadCandle) : ℚ :=
  match data with
  | [] => 0
  | c :: cs =>
    let highest_high := cs.foldl (fun m x => max m x.high) c.high
    let lowest_low := cs.foldl (fun m x => min m x.low) c.low
    if highest_high > 0 then round4 ((highest_high - lowest_low) / highest_high * 100) else 0

/-! ### Cross-exchange merge (`combine_and_save_rotator_data`, lines 54-87)

Both per-exchange tables share the standard column schema: an `"Asset"`
key, the four volume columns `"1m/5m/30m/1h 1x Volume (USDT)"`, and the
remaining columns.  A row is embedded with its asset, its four volume
values (`Fin 4`, numeric), and its other non-Asset columns (`Fin n → V`,
one abstract value per column).  `pd.merge(data_bybit, data_binance,
on="Asset", how="outer", suffixes=('_bybit', '_binance'))` pairs each
asset with its bybit-side and binance-side rows, a missing side being NaN
(`Option.none`).  The code then

  1. sums the volume columns with `fillna(0)` on both sides,
  2. copies every `X_bybit` column into `X` (lines 71-73), and
  3. copies every `X_binance` column into `X` (lines 74-76), which
     overwrites step 2 wholesale — including the NaNs of assets absent
     from the binance table,

so the final non-volume value of every row is the binance side's value
when that side exists and NaN otherwise; the bybit copies of step 2 are
discarded.  The embedding reproduces this faithfully. -/

/-- One row of a per-exchange analysis table over the standard schema:
the `"Asset"` key, the four summed-volume columns, and the `n` remaining
non-Asset columns with values in `V`. -/
structure ExchangeRow (n : ℕ) (V : Type) where
  asset : String
  vol : Fin 4 → ℚ
  other : Fin n → V

/-- One row of the merged table.  A non-volume column can be NaN
(`Option.none`) when the outer merge had no value to put there. -/
structure MergedRow (n : ℕ) (V : Type) where
  asset : String
  vol : Fin 4 → ℚ
  other : Fin n → Option V

/-- The row pairing produced by the outer merge on `"Asset"`: every
bybit-side row matched with the binance-side row of the same asset (if
any), followed by the binance-only rows.  The per-exchange tables carry
one row per symbol, so the first match is the match. -/
def outerJoinRows {n : ℕ} {V : Type} (data_bybit data_binance : List (ExchangeRow n V)) :
    List (String × Option (ExchangeRow n V) × Option (ExchangeRow n V)) :=
  data_bybit.map
      (fun rb => (rb.asset, some rb, data_binance.find? (fun rn => rn.asset == rb.asset)))
    ++ (data_binance.filter
          (fun rn => !(data_bybit.any (fun rb => rb.asset == rn.asset)))).map
        (fun rn => (rn.asset, none, some rn))

/-- Embedding of `CombinedScraper.combine_and_save_rotator_data`
(lines 54-87), up to the `to_json` side effect: the volume columns are the
`fillna(0)` sums of both sides, and each remaining column holds whatever
the `_binance` copy loop left there — the binance side's value, or NaN for
an asset with no binance row. -/
def combine_and_save_rotator_data {n : ℕ} {V : Type}
    (data_binance data_bybit : List (ExchangeRow n V)) : List (MergedRow n V) :=
  (outerJoinRows data_bybit data_binance).map (fun row =>
    { asset := row.1
      vol := fun c =>
        (match row.2.1 with
         | some r => r.vol c
         | none => 0)
          + (match row.2.2 with
             | some r => r.vol c
             | none => 0)
      other := fun c =>
        match row.2.2 with
        | some r => some (r.other c)
        | none => none })

/-! ### Publication pipeline (`run_scraper_for_exchange`, lines 591-711)

One cycle writes, in source order: the primary analytics table, the
legacy-named primary copy (bybit only), the tradeable view, the
rotator-symbols view, the legacy-named rotator copy (bybit only), the
negative-funding view, the positive-funding view, and the
historical-volume map.  The first four go through write-temp-then-rename;
the last four are written directly to the destination path.  A
`tempRename` write is modelled with its intermediate filesystem states to
express what a crash before the rename can expose. -/

/-- A path-to-content map standing for the published directory. -/
abbrev FS : Type := String → Option String

/-- One artifact write of the cycle: either the write-to-temp-then-rename
pattern or a direct write to the destination. -/
inductive WriteOp where
  | tempRename (temp dest : String) : WriteOp
  | direct (dest : String) : WriteOp
  deriving DecidableEq

/-- The destination path of a write. -/
def WriteOp.dest : WriteOp → String
  | tempRename _ d => d
  | direct d => d

/-- Whether the write uses the temp-file-plus-rename pattern. -/
def WriteOp.isAtomic : WriteOp → Bool
  | tempRename _ _ => true
  | direct _ => false

/-- The artifact directory used by `run_scraper_for_exchange`. -/
def dataDir : String := "/var/www/api/data/"

/-- The artifact writes of one `run_scraper_for_exchange` cycle, in source
order (lines 608-711), for the given `exchange_name`. -/
def publicationPlan (exchange_name : String) : List WriteOp :=
  [WriteOp.tempRename (dataDir ++ "quantdatav2_" ++ exchange_name ++ "_temp.json")
      (dataDir ++ "quantdatav2_" ++ exchange_name ++ ".json")]
    ++ (if exchange_name = "bybit" then
          [WriteOp.tempRename (dataDir ++ "quantdatav2_temp.json")
              (dataDir ++ "quantdatav2.json")]
        else [])
    ++ [WriteOp.tempRename (dataDir ++ "whattotrade_" ++ exchange_name ++ "_temp.json")
          (dataDir ++ "whattotrade_" ++ exchange_name ++ ".json"),
        WriteOp.tempRename (dataDir ++ "rotatorsymbols_" ++ exchange_name ++ "_temp.json")
          (dataDir ++ "rotatorsymbols_" ++ exchange_name ++ ".json")]
    ++ (if exchange_name = "bybit" then [WriteOp.direct (dataDir ++ "rotatorsymbols.json")]
        else [])
    ++ [WriteOp.direct (dataDir ++ "negativefunding_" ++ exchange_name ++ ".json"),
        WriteOp.direct (dataDir ++ "positivefunding_" ++ exchange_name ++ ".json"),
        WriteOp.direct (dataDir ++ "total_historical_volume_" ++ exchange_name ++ ".json")]

/-- How far a temp-then-rename publication has progressed. -/
inductive PubStage where
  | started
  | tempWritten
  | renamed
  deriving DecidableEq

/-- The filesystem as seen at each stage of a temp-then-rename publication
of `content`: nothing yet, the complete serialization at the temp path, or
the rename done (`os.rename` replaces `dest` atomically). -/
def tempRenameState (fs : FS) (temp dest content : String) : PubStage → FS
  | PubStage.started => fs
  | PubStage.tempWritten => fun p => if p = temp then some content else fs p
  | PubStage.renamed => fun p => if p = dest then some content else if p = temp then none else fs p

/-! ### Concrete fixtures used by the witness theorems -/

/-- A per-symbol analysis that raises on attempts 1 and 2 and returns a
record on attempt 3. -/
def analyseFailTwice : ℕ → Except String ℚ :=
  fun n => if n < 3 then Except.error "boom" else Except.ok 7

/-- A universe of three symbols in which exactly the symbol `"B"` fails on
every attempt and the other two succeed immediately. -/
def analyseOneDown (s : String) : ℕ → Except String AnalysisRow :=
  fun _ => if s = "B" then Except.error "down" else Except.ok ⟨s, 0, 0, 0⟩

/-- A single-row bybit table whose asset has no binance counterpart:
all four volumes 100, a single other column holding 5. -/
def bybitOnlyTable : List (ExchangeRow 1 ℚ) :=
  [⟨"AAAUSDT", fun _ => 100, fun _ => 5⟩]

/-! ## Helper lemmas -/

/-- If the first success is the `k`-th analysis call and enough loop fuel
remains to reach it, the loop returns that success after `k + 1 - attempt`
calls with one sleep after every failed call. -/
theorem retryAux_first_success {α : Type} (analyse : ℕ → Except String α) (symbol : String)
    (retryLimit : ℤ) (a : α) (k : ℕ)
    (hfail : ∀ i, 1 ≤ i → i < k → ∃ e, analyse i = Except.error e)
    (hok : analyse k = Except.ok a) :
    ∀ fuel attempt, 1 ≤ attempt → attempt ≤ k → k < attempt + fuel →
      retryAux analyse symbol retryLimit attempt fuel =
        { result := Except.ok a, calls := k + 1 - attempt, sleeps := k - attempt } := by
  intro fuel
  induction fuel with
  | zero => intro attempt _ h2 h3; omega
  | succ fuel ih =>
    intro attempt h1 h2 h3
    by_cases hak : attempt = k
    · subst hak
      simp only [retryAux, hok]
      congr 1 <;> omega
    · obtain ⟨e, he⟩ := hfail attempt h1 (by omega)
      simp only [retryAux, he]
      rw [ih (attempt + 1) (by omega) (by omega) (by omega)]
      dsimp only
      congr 1 <;> omega

/-- If every analysis call raises, the loop ends in the raise, whatever the
fuel and starting attempt. -/
theorem retryAux_all_fail {α : Type} (analyse : ℕ → Except String α) (symbol : String)
    (retryLimit : ℤ) (hfail : ∀ n, ∃ e, analyse n = Except.error e) :
    ∀ fuel attempt, (retryAux analyse symbol retryLimit attempt fuel).result =
      Except.error
        ("Failed to analyse " ++ symbol ++ " after " ++ toString retryLimit ++ " attempts.") := by
  intro fuel
  induction fuel with
  | zero => intro attempt; rfl
  | succ fuel ih =>
    intro attempt
    obtain ⟨e, he⟩ := hfail attempt
    simp only [retryAux, he]
    exact ih (attempt + 1)

/-- The loop never calls the analysis more often than it has fuel. -/
theorem retryAux_calls_le {α : Type} (analyse : ℕ → Except String α) (symbol : String)
    (retryLimit : ℤ) :
    ∀ fuel attempt, (retryAux analyse symbol retryLimit attempt fuel).calls ≤ fuel := by
  intro fuel
  induction fuel with
  | zero => intro attempt; exact Nat.le_refl 0
  | succ fuel ih =>
    intro attempt
    cases he : analyse attempt with
    | ok a => simp only [retryAux, he]; omega
    | error e =>
      simp only [retryAux, he]
      have := ih (attempt + 1)
      omega

/-! ## C3 — retry succeeds on attempt `k ≤ retryLimit` -/

/-- C3: if the per-symbol analysis raises on attempts `1 .. k-1` and
succeeds on attempt `k` with `k ≤ retryLimit`, then
`retry_analyse_symbol` returns that successful record (no error reaches
the caller), having called the analysis exactly `k` times with a
one-second `time.sleep(1)` after each of the `k - 1` failures — i.e. a
fixed one-second pause between consecutive attempts. -/
theorem C3_retry_returns_first_success {α : Type} (analyse : ℕ → Except String α)
    (symbol : String) (retryLimit : ℤ) (a : α) (k : ℕ)
    (hk1 : 1 ≤ k) (hkL : (k : ℤ) ≤ retryLimit)
    (hfail : ∀ i, 1 ≤ i → i < k → ∃ e, analyse i = Except.error e)
    (hok : analyse k = Except.ok a) :
    retry_analyse_symbol analyse symbol retryLimit =
      { result := Except.ok a, calls := k, sleeps := k - 1 } := by
  unfold retry_analyse_symbol
  rw [retryAux_first_success analyse symbol retryLimit a k hfail hok retryLimit.toNat 1
      (Nat.le_refl 1) hk1 (by omega)]
  simp only [Nat.add_sub_cancel]

/-- Witness for C3: failures on attempts 1 and 2, success on attempt 3,
`retryLimit = 5`: the record of attempt 3 is returned after three calls
and two sleeps. -/
theorem C3_retry_returns_first_success_witness :
    retry_analyse_symbol analyseFailTwice "BTCUSDT" 5 =
      { result := Except.ok (7 : ℚ), calls := 3, sleeps := 2 } :=
  C3_retry_returns_first_success analyseFailTwice "BTCUSDT" 5 7 3 (by decide) (by decide)
    (fun i _ h3 => ⟨"boom", by simp [analyseFailTwice, h3]⟩)
    (by simp [analyseFailTwice])

/-! ## C10 — nonpositive retry limit and the call bound -/

/-- C10: with `retry_limit ≤ 0` the loop body never runs, so
`retry_analyse_symbol` raises its final exception at once — zero analysis
calls, zero sleeps; and in general the analysis is called at most
`retry_limit.toNat` (i.e. at most `retry_limit`) times before the
`Failed to analyse ... attempts.` exception. -/
theorem C10_retry_call_bound {α : Type} (analyse : ℕ → Except String α) (symbol : String)
    (retryLimit : ℤ) :
    (retryLimit ≤ 0 →
      retry_analyse_symbol analyse symbol retryLimit =
        { result := Except.error
            ("Failed to analyse " ++ symbol ++ " after " ++ toString retryLimit ++ " attempts.")
          calls := 0
          sleeps := 0 })
    ∧ (retry_analyse_symbol analyse symbol retryLimit).calls ≤ retryLimit.toNat := by
  constructor
  · intro h
    have h0 : retryLimit.toNat = 0 := by omega
    unfold retry_analyse_symbol
    rw [h0]
    rfl
  · exact retryAux_calls_le analyse symbol retryLimit retryLimit.toNat 1

/-- Witness for C10: `retry_limit = 0` raises immediately, the analysis
function (which would succeed) is never invoked. -/
theorem C10_retry_call_bound_witness :
    retry_analyse_symbol (fun _ => Except.ok (1 : ℚ)) "BTCUSDT" 0 =
      { result := Except.error
          ("Failed to analyse " ++ "BTCUSDT" ++ " after " ++ toString (0 : ℤ) ++ " attempts.")
        calls := 0
        sleeps := 0 } :=
  (C10_retry_call_bound (fun _ => Except.ok (1 : ℚ)) "BTCUSDT" 0).1 (by decide)

/-! ## C5 — funding-cache TTL behaviour -/

/-- C5: a fresh cache entry (age strictly below the 4-hour TTL) is
returned as is with no exchange fetch and no cache change; a missing or
stale entry triggers exactly one fetch and stores `(now, rate)`; hence two
sequential queries for a symbol within the TTL fetch once, and a query
after the TTL elapses fetches again. -/
theorem C5_get_cached_funding_ttl (cache : FundingCache) (symbol : String)
    (now lastFetched : ℤ) (r rate : ℚ) :
    (cache symbol = some (lastFetched, r) → now - lastFetched < FUNDING_CACHE_DURATION →
      get_cached_funding cache symbol now rate =
        { rate := r, cache := cache, fetchedFromExchange := false })
    ∧ (cache symbol = none →
      (get_cached_funding cache symbol now rate).rate = rate * 100
        ∧ (get_cached_funding cache symbol now rate).cache symbol = some (now, rate * 100)
        ∧ (get_cached_funding cache symbol now rate).fetchedFromExchange = true)
    ∧ (cache symbol = some (lastFetched, r) → FUNDING_CACHE_DURATION ≤ now - lastFetched →
      (get_cached_funding cache symbol now rate).rate = rate * 100
        ∧ (get_cached_funding cache symbol now rate).cache symbol = some (now, rate * 100)
        ∧ (get_cached_funding cache symbol now rate).fetchedFromExchange = true)
    ∧ (∀ t2 rate2, cache symbol = none → t2 - now < FUNDING_CACHE_DURATION →
      get_cached_funding (get_cached_funding cache symbol now rate).cache symbol t2 rate2 =
        { rate := rate * 100
          cache := (get_cached_funding cache symbol now rate).cache
          fetchedFromExchange := false })
    ∧ (∀ t3 rate3, cache symbol = none → FUNDING_CACHE_DURATION ≤ t3 - now →
      (get_cached_funding (get_cached_funding cache symbol now rate).cache symbol
          t3 rate3).fetchedFromExchange = true) := by
  refine ⟨?_, ?_, ?_, ?_, ?_⟩
  · intro hmem hfresh
    simp [get_cached_funding, hmem, hfresh]
  · intro hnone
    simp [get_cached_funding, hnone]
  · intro hmem hstale
    simp [get_cached_funding, hmem, not_lt.mpr hstale]
  · intro t2 rate2 hnone hfresh
    have hstore : (get_cached_funding cache symbol now rate).cache symbol =
        some (now, rate * 100) := by
      simp [get_cached_funding, hnone]
    generalize hc : (get_cached_funding cache symbol now rate).cache = c1 at hstore ⊢
    simp [get_cached_funding, hstore, hfresh]
  · intro t3 rate3 hnone hstale
    have hstore : (get_cached_funding cache symbol now rate).cache symbol =
        some (now, rate * 100) := by
      simp [get_cached_funding, hnone]
    generalize hc : (get_cached_funding cache symbol now rate).cache = c1 at hstore ⊢
    simp [get_cached_funding, hstore, not_lt.mpr hstale]

/-- Witness for C5: on an empty cache, a fetch at time 0 stores the rate,
a second query 100 seconds later is served from the cache without
fetching, and a query four hours later fetches again. -/
theorem C5_get_cached_funding_ttl_witness :
    ((get_cached_funding (fun _ => none) "BTCUSDT" 0 (3 / 10)).rate = (3 : ℚ) / 10 * 100
        ∧ (get_cached_funding (fun _ => none) "BTCUSDT" 0 (3 / 10)).cache "BTCUSDT" =
            some (0, (3 : ℚ) / 10 * 100)
        ∧ (get_cached_funding (fun _ => none) "BTCUSDT" 0 (3 / 10)).fetchedFromExchange = true)
    ∧ get_cached_funding (get_cached_funding (fun _ => none) "BTCUSDT" 0 (3 / 10)).cache
          "BTCUSDT" 100 (9 : ℚ) =
        { rate := (3 : ℚ) / 10 * 100
          cache := (get_cached_funding (fun _ => none) "BTCUSDT" 0 (3 / 10)).cache
          fetchedFromExchange := false }
    ∧ (get_cached_funding (get_cached_funding (fun _ => none) "BTCUSDT" 0 (3 / 10)).cache
          "BTCUSDT" 14400 (9 : ℚ)).fetchedFromExchange = true := by
  refine ⟨?_, ?_, ?_⟩
  · exact (C5_get_cached_funding_ttl (fun _ => none) "BTCUSDT" 0 0 0 (3 / 10)).2.1 rfl
  · exact (C5_get_cached_funding_ttl (fun _ => none) "BTCUSDT" 0 0 0
      (3 / 10)).2.2.2.1 100 9 rfl (by decide)
  · exact (C5_get_cached_funding_ttl (fun _ => none) "BTCUSDT" 0 0 0
      (3 / 10)).2.2.2.2 14400 9 rfl (by decide)

/-! ## C9 — the funding cache is shared across exchanges, keyed by symbol -/

/-- C9: the module-level `funding_cache` dict is aliased by every
`CombinedScraper` (`self.funding_cache = funding_cache`) and keyed by the
symbol name alone.  After one exchange's scraper stores an entry, the
other exchange's scraper querying the same symbol within the TTL gets that
stored rate back with no fetch from its own exchange — whatever rate its
own exchange would have returned. -/
theorem C9_funding_cache_shared_across_exchanges (cache : FundingCache) (symbol : String)
    (t1 t2 : ℤ) (rateA rateB : ℚ)
    (h0 : cache symbol = none) (hfresh : t2 - t1 < FUNDING_CACHE_DURATION) :
    (get_cached_funding (get_cached_funding cache symbol t1 rateA).cache symbol
        t2 rateB).fetchedFromExchange = false
    ∧ (get_cached_funding (get_cached_funding cache symbol t1 rateA).cache symbol
        t2 rateB).rate = rateA * 100
    ∧ (get_cached_funding (get_cached_funding cache symbol t1 rateA).cache symbol
        t2 rateB).rate = (get_cached_funding cache symbol t1 rateA).rate := by
  have hstore : (get_cached_funding cache symbol t1 rateA).cache symbol =
      some (t1, rateA * 100) := by
    simp [get_cached_funding, h0]
  have hrate : (get_cached_funding cache symbol t1 rateA).rate = rateA * 100 := by
    simp [get_cached_funding, h0]
  have h2 : get_cached_funding (get_cached_funding cache symbol t1 rateA).cache symbol
        t2 rateB =
      { rate := rateA * 100
        cache := (get_cached_funding cache symbol t1 rateA).cache
        fetchedFromExchange := false } := by
    generalize hc : (get_cached_funding cache symbol t1 rateA).cache = c1 at hstore ⊢
    simp [get_cached_funding, hstore, hfresh]
  rw [h2, hrate]
  exact ⟨rfl, rfl, rfl⟩

/-- Witness for C9: the bybit scraper caches `0.25 * 100` at time 0; the
binance scraper reads the same symbol at time 60 and gets the bybit value
with no fetch, even though binance would have returned a different rate. -/
theorem C9_funding_cache_shared_across_exchanges_witness :
    (get_cached_funding (get_cached_funding (fun _ => none) "XRPUSDT" 0 (1 / 4)).cache
        "XRPUSDT" 60 (7 : ℚ)).fetchedFromExchange = false
    ∧ (get_cached_funding (get_cached_funding (fun _ => none) "XRPUSDT" 0 (1 / 4)).cache
        "XRPUSDT" 60 (7 : ℚ)).rate = (1 : ℚ) / 4 * 100
    ∧ (get_cached_funding (get_cached_funding (fun _ => none) "XRPUSDT" 0 (1 / 4)).cache
        "XRPUSDT" 60 (7 : ℚ)).rate =
      (get_cached_funding (fun _ => none) "XRPUSDT" 0 (1 / 4)).rate :=
  C9_funding_cache_shared_across_exchanges (fun _ => none) "XRPUSDT" 0 60 (1 / 4) 7 rfl
    (by decide)

/-! ## C4 — one permanently failing symbol is dropped, siblings survive -/

/-- A `filterMap` over a list on which the function always produces a value
keeps every element. -/
theorem length_filterMap_of_forall_isSome {α β : Type} (f : α → Option β) (l : List α)
    (h : ∀ x ∈ l, (f x).isSome) : (l.filterMap f).length = l.length := by
  induction l with
  | nil => rfl
  | cons x xs ih =>
    obtain ⟨b, hb⟩ := Option.isSome_iff_exists.mp (h x (List.mem_cons_self x xs))
    have hrec := ih (fun y hy => h y (List.mem_cons_of_mem x hy))
    simp [List.filterMap_cons, hb, hrec]

/-- A `filterMap` dropping exactly one element of a duplicate-free list
shortens it by exactly one. -/
theorem length_filterMap_dropping_one {α β : Type} (f : α → Option β) (l : List α) (x0 : α)
    (hnd : l.Nodup) (hx0 : x0 ∈ l) (hnone : f x0 = none)
    (hsome : ∀ x ∈ l, x ≠ x0 → (f x).isSome) :
    (l.filterMap f).length = l.length - 1 := by
  induction l with
  | nil => cases hx0
  | cons x xs ih =>
    rcases List.mem_cons.mp hx0 with rfl | hmem
    · have hxs : ∀ y ∈ xs, (f y).isSome := by
        intro y hy
        refine hsome y (List.mem_cons_of_mem _ hy) ?_
        intro hyx
        rw [hyx] at hy
        exact (List.nodup_cons.mp hnd).1 hy
      simp [List.filterMap_cons, hnone, length_filterMap_of_forall_isSome f xs hxs]
    · have hx : x ≠ x0 := by
        intro h
        rw [h] at hnd
        exact (List.nodup_cons.mp hnd).1 hmem
      obtain ⟨b, hb⟩ :=
        Option.isSome_iff_exists.mp (hsome x (List.mem_cons_self x xs) hx)
      have hrec := ih (List.nodup_cons.mp hnd).2 hmem
        (fun y hy hyx => hsome y (List.mem_cons_of_mem x hy) hyx)
      have hpos : 0 < xs.length := List.length_pos.mpr (List.ne_nil_of_mem hmem)
      simp only [List.filterMap_cons, hb, List.length_cons, hrec]
      omega

/-- C4: in a duplicate-free universe where exactly the symbol `s0` fails on
every analysis attempt and every other symbol's retry loop succeeds,
`analyse_all_symbols` returns a table with exactly `N - 1` rows — the
permanently failing symbol is dropped by the fan-in's `except` branch, no
exception reaches the caller (the embedding is a total function), and every
sibling's successful record is still in the table. -/
theorem C4_one_failing_symbol_dropped (symbols : List String) (s0 : String)
    (analyse : String → ℕ → Except String AnalysisRow) (retryLimit : ℤ)
    (hnd : symbols.Nodup) (hs0 : s0 ∈ symbols)
    (hfail : ∀ n, ∃ e, analyse s0 n = Except.error e)
    (hok : ∀ s, s ∈ symbols → s ≠ s0 →
      ∃ a, (retry_analyse_symbol (analyse s) s retryLimit).result = Except.ok a) :
    (analyse_all_symbols symbols analyse retryLimit).length = symbols.length - 1
    ∧ ∀ s a, s ∈ symbols →
        (retry_analyse_symbol (analyse s) s retryLimit).result = Except.ok a →
        a ∈ analyse_all_symbols symbols analyse retryLimit := by
  constructor
  · unfold analyse_all_symbols
    rw [List.length_mergeSort]
    refine length_filterMap_dropping_one _ symbols s0 hnd hs0 ?_ ?_
    · show ((retry_analyse_symbol (analyse s0) s0 retryLimit).result).toOption = none
      unfold retry_analyse_symbol
      rw [retryAux_all_fail (analyse s0) s0 retryLimit hfail retryLimit.toNat 1]
      rfl
    · intro s hs hne
      obtain ⟨a, ha⟩ := hok s hs hne
      show ((retry_analyse_symbol (analyse s) s retryLimit).result).toOption.isSome = true
      rw [ha]
      rfl
  · intro s a hs ha
    unfold analyse_all_symbols
    have hmem : a ∈ symbols.filterMap
        (fun s => ((retry_analyse_symbol (analyse s) s retryLimit).result).toOption) := by
      refine List.mem_filterMap.mpr ⟨s, hs, ?_⟩
      rw [ha]
      rfl
    exact ((List.mergeSort_perm _ rowSortLE).mem_iff).mpr hmem

/-- Witness for C4: of the three symbols `A`, `B`, `C`, only `B` fails
permanently; the table has exactly two rows. -/
theorem C4_one_failing_symbol_dropped_witness :
    (analyse_all_symbols ["A", "B", "C"] analyseOneDown 5).length = 2 := by
  have hok : ∀ s, s ∈ ["A", "B", "C"] → s ≠ "B" →
      ∃ a, (retry_analyse_symbol (analyseOneDown s) s 5).result = Except.ok a := by
    intro s hs hne
    simp only [List.mem_cons, List.not_mem_nil, or_false] at hs
    rcases hs with rfl | rfl | rfl
    · exact ⟨⟨"A", 0, 0, 0⟩, rfl⟩
    · exact absurd rfl hne
    · exact ⟨⟨"C", 0, 0, 0⟩, rfl⟩
  exact (C4_one_failing_symbol_dropped ["A", "B", "C"] "B" analyseOneDown 5 (by decide)
    (by decide) (fun n => ⟨"down", rfl⟩) hok).1

/-! ## C6 — `filter_df` views -/

/-- C6: `filter_df` with `<` keeps exactly the rows whose column value is
strictly below the threshold (each row kept whole, all columns preserved),
`>` and `==` behave analogously, the `<` 0 and `>` 0 funding views
partition the rows with nonzero funding, and any operator outside
`>`, `<`, `==` is logged and yields Python `None` — no rows and no
exception. -/
theorem C6_filter_df_views {α : Type} (rows : List α) (filterCol : α → ℚ) (value : ℚ) :
    (∃ l, filter_df rows filterCol "<" value = some l
        ∧ ∀ r, r ∈ l ↔ r ∈ rows ∧ filterCol r < value)
    ∧ (∃ l, filter_df rows filterCol ">" value = some l
        ∧ ∀ r, r ∈ l ↔ r ∈ rows ∧ value < filterCol r)
    ∧ (∃ l, filter_df rows filterCol "==" value = some l
        ∧ ∀ r, r ∈ l ↔ r ∈ rows ∧ filterCol r = value)
    ∧ (∀ lneg lpos, filter_df rows filterCol "<" 0 = some lneg →
        filter_df rows filterCol ">" 0 = some lpos →
        ∀ r, r ∈ rows →
          ((filterCol r ≠ 0 ↔ (r ∈ lneg ∨ r ∈ lpos)) ∧ ¬(r ∈ lneg ∧ r ∈ lpos)))
    ∧ (∀ operator, operator ≠ ">" → operator ≠ "<" → operator ≠ "==" →
        filter_df rows filterCol operator value = none) := by
  have hlt : ∀ v : ℚ, filter_df rows filterCol "<" v =
      some (rows.filter (fun r => decide (filterCol r < v))) := by
    intro v
    unfold filter_df
    rw [if_neg (by decide), if_pos rfl]
  have hgt : ∀ v : ℚ, filter_df rows filterCol ">" v =
      some (rows.filter (fun r => decide (v < filterCol r))) := by
    intro v
    unfold filter_df
    rw [if_pos rfl]
  have heq : filter_df rows filterCol "==" value =
      some (rows.filter (fun r => decide (filterCol r = value))) := by
    unfold filter_df
    rw [if_neg (by decide), if_neg (by decide), if_pos rfl]
  refine ⟨⟨_, hlt value, fun r => ?_⟩, ⟨_, hgt value, fun r => ?_⟩,
    ⟨_, heq, fun r => ?_⟩, ?_, ?_⟩
  · simp [List.mem_filter]
  · simp [List.mem_filter]
  · simp [List.mem_filter]
  · intro lneg lpos hneg hpos r hr
    have h1 : rows.filter (fun r => decide (filterCol r < 0)) = lneg :=
      Option.some.inj ((hlt 0).symm.trans hneg)
    have h2 : rows.filter (fun r => decide (0 < filterCol r)) = lpos :=
      Option.some.inj ((hgt 0).symm.trans hpos)
    subst h1
    subst h2
    constructor
    · simp only [List.mem_filter, hr, true_and, decide_eq_true_eq]
      constructor
      · intro h
        exact lt_or_gt_of_ne h
      · intro h
        rcases h with h | h
        · exact ne_of_lt h
        · exact ne_of_gt h
    · intro hb
      rcases hb with ⟨hbn, hbp⟩
      simp only [List.mem_filter, decide_eq_true_eq] at hbn hbp
      exact absurd hbp.2 (not_lt.mpr (le_of_lt hbn.2))
  · intro operator h1 h2 h3
    unfold filter_df
    rw [if_neg h1, if_neg h2, if_neg h3]

/-- Witness for C6: the unsupported operator `!=` yields `None`. -/
theorem C6_filter_df_views_witness :
    filter_df [(1 : ℚ), -2, 0] id "!=" 0 = none :=
  (C6_filter_df_views [(1 : ℚ), -2, 0] id 0).2.2.2.2 "!=" (by decide) (by decide) (by decide)

/-! ## C7 — oscillator verdict backward scan -/

/-- The spec's description of the verdict, stated directly: the first bar
of the (already reversed, newest-first) window satisfying the buy
condition yields `"long"`, the first satisfying the sell condition yields
`"short"`, otherwise `"neutral"`.  Bars behind the first qualifying one
cannot influence `List.find?`, hence not the verdict. -/
def firstVerdict (l : List MfiBar) : String :=
  match l.find? (fun b => buy_condition b || sell_condition b) with
  | some b => if buy_condition b then "long" else "short"
  | none => "neutral"

/-- The scan loop computes exactly the first-qualifying-bar verdict. -/
theorem mfiScan_eq_firstVerdict (l : List MfiBar) : mfiScan l = firstVerdict l := by
  induction l with
  | nil => rfl
  | cons b rest ih =>
    cases hb : buy_condition b with
    | true => simp [mfiScan, firstVerdict, List.find?_cons, hb]
    | false =>
      cases hs : sell_condition b with
      | true => simp [mfiScan, firstVerdict, List.find?_cons, hb, hs]
      | false => simpa [mfiScan, firstVerdict, List.find?_cons, hb, hs] using ih

/-- C7 (amended with `lookback ≥ 1`): `get_mfi` scans the most recent
`min lookback n` bars newest-first and returns `"long"` at the first bar
with MFI < 20, RSI < 35 and open < close, `"short"` at the first bar with
MFI > 80, RSI > 65 and open ≥ close, and `"neutral"` when no bar of the
window qualifies; bars older than the first qualifying bar of the backward
scan cannot affect the result.  (For `lookback = 0` the claim fails: see
the counterexample — Python's `iloc[-0:]` is the whole frame.) -/
theorem C7_get_mfi_backward_scan (bars : List MfiBar) (lookback : ℕ) (h1 : 1 ≤ lookback) :
    get_mfi bars lookback = firstVerdict (bars.drop (bars.length - lookback)).reverse := by
  have hiloc : ilocLast bars lookback = bars.drop (bars.length - lookback) := by
    unfold ilocLast
    rw [if_neg (by omega)]
  unfold get_mfi
  rw [hiloc, mfiScan_eq_firstVerdict]

/-- Counterexample for C7 as stated: at `lookback = 0` the claimed window
holds zero bars, so the claim predicts `"neutral"`; the code's
`iloc[-0:]` selects the entire series and the single buy bar
(MFI 10 < 20, RSI 30 < 35, open 1 < close 2) answers `"long"`. -/
theorem C7_lookback_zero_scans_everything :
    get_mfi [⟨1, 2, 10, 30⟩] 0 = "long" ∧ ("long" : String) ≠ "neutral" := by
  exact ⟨rfl, by decide⟩

/-- Witness for C7: a window of two bars whose older bar is a sell bar and
whose newest bar is a buy bar answers `"long"` — the backward scan stops at
the newest qualifying bar. -/
theorem C7_get_mfi_backward_scan_witness :
    get_mfi [⟨2, 1, 90, 70⟩, ⟨1, 2, 10, 30⟩] 2 = "long" :=
  (C7_get_mfi_backward_scan [⟨2, 1, 90, 70⟩, ⟨1, 2, 10, 30⟩] 2 (by decide)).trans (by decide)

/-! ## C8 — spread formula -/

/-- Folding `max` never exceeds an upper bound of the seed and the list. -/
theorem foldl_max_le_of_le {bound : ℚ} :
    ∀ (l : List ℚ) (a : ℚ), a ≤ bound → (∀ x ∈ l, x ≤ bound) → l.foldl max a ≤ bound
  | [], _, ha, _ => ha
  | x :: xs, a, ha, h =>
    foldl_max_le_of_le xs (max a x) (max_le ha (h x (List.mem_cons_self x xs)))
      (fun y hy => h y (List.mem_cons_of_mem x hy))

/-- The seed is below the `max` fold. -/
theorem le_foldl_max : ∀ (l : List ℚ) (a : ℚ), a ≤ l.foldl max a
  | [], _ => le_refl _
  | x :: xs, a => le_trans (le_max_left a x) (le_foldl_max xs (max a x))

/-- Every list element is below the `max` fold. -/
theorem mem_le_foldl_max : ∀ (l : List ℚ) (x a : ℚ), x ∈ l → x ≤ l.foldl max a
  | [], x, _, hx => absurd hx (List.not_mem_nil x)
  | y :: ys, x, a, hx => by
    rcases List.mem_cons.mp hx with rfl | hmem
    · exact le_trans (le_max_right a x) (le_foldl_max ys (max a x))
    · exact mem_le_foldl_max ys x (max a y) hmem

/-- Folding `min` stays above a lower bound of the seed and the list. -/
theorem le_foldl_min_of_le {bound : ℚ} :
    ∀ (l : List ℚ) (a : ℚ), bound ≤ a → (∀ x ∈ l, bound ≤ x) → bound ≤ l.foldl min a
  | [], _, ha, _ => ha
  | x :: xs, a, ha, h =>
    le_foldl_min_of_le xs (min a x) (le_min ha (h x (List.mem_cons_self x xs)))
      (fun y hy => h y (List.mem_cons_of_mem x hy))

/-- The `min` fold is below the seed. -/
theorem foldl_min_le : ∀ (l : List ℚ) (a : ℚ), l.foldl min a ≤ a
  | [], _ => le_refl _
  | x :: xs, a => le_trans (foldl_min_le xs (min a x)) (min_le_left a x)

/-- The `min` fold is below every list element. -/
theorem foldl_min_le_mem : ∀ (l : List ℚ) (x a : ℚ), x ∈ l → l.foldl min a ≤ x
  | [], x, _, hx => absurd hx (List.not_mem_nil x)
  | y :: ys, x, a, hx => by
    rcases List.mem_cons.mp hx with rfl | hmem
    · exact le_trans (foldl_min_le ys (min a x)) (min_le_right a x)
    · exact foldl_min_le_mem ys x (min a y) hmem

/-- C8: on a nonempty candle window whose highest high is `hh` and lowest
low is `ll`, `get_spread` returns `round((hh - ll) / hh * 100, 4)` when
`hh > 0` and `0.0` when `hh ≤ 0` — the division is only reached under the
`highest_high > 0` guard. -/
theorem C8_get_spread_formula (c : SpreadCandle) (cs : List SpreadCandle) (hh ll : ℚ)
    (hhmem : hh ∈ (c :: cs).map SpreadCandle.high)
    (hhub : ∀ x ∈ (c :: cs).map SpreadCandle.high, x ≤ hh)
    (llmem : ll ∈ (c :: cs).map SpreadCandle.low)
    (lllb : ∀ x ∈ (c :: cs).map SpreadCandle.low, ll ≤ x) :
    (hh > 0 → get_spread (c :: cs) = round4 ((hh - ll) / hh * 100))
    ∧ (hh ≤ 0 → get_spread (c :: cs) = 0) := by
  have hfold : (cs.map SpreadCandle.high).foldl max c.high =
      cs.foldl (fun m x => max m x.high) c.high := List.foldl_map _ _ _ _
  have hfoldmin : (cs.map SpreadCandle.low).foldl min c.low =
      cs.foldl (fun m x => min m x.low) c.low := List.foldl_map _ _ _ _
  have hmax : cs.foldl (fun m x => max m x.high) c.high = hh := by
    rw [← hfold]
    apply le_antisymm
    · refine foldl_max_le_of_le (cs.map SpreadCandle.high) c.high ?_ ?_
      · exact hhub c.high (by rw [List.map_cons]; exact List.mem_cons_self _ _)
      · intro x hx
        exact hhub x (by rw [List.map_cons]; exact List.mem_cons_of_mem _ hx)
    · rw [List.map_cons] at hhmem
      rcases List.mem_cons.mp hhmem with rfl | hmem
      · exact le_foldl_max (cs.map SpreadCandle.high) c.high
      · exact mem_le_foldl_max (cs.map SpreadCandle.high) hh c.high hmem
  have hmin : cs.foldl (fun m x => min m x.low) c.low = ll := by
    rw [← hfoldmin]
    apply le_antisymm
    · rw [List.map_cons] at llmem
      rcases List.mem_cons.mp llmem with rfl | hmem
      · exact foldl_min_le (cs.map SpreadCandle.low) c.low
      · exact foldl_min_le_mem (cs.map SpreadCandle.low) ll c.low hmem
    · refine le_foldl_min_of_le (cs.map SpreadCandle.low) c.low ?_ ?_
      · exact lllb c.low (by rw [List.map_cons]; exact List.mem_cons_self _ _)
      · intro x hx
        exact lllb x (by rw [List.map_cons]; exact List.mem_cons_of_mem _ hx)
  have hspread : get_spread (c :: cs) =
      (if cs.foldl (fun m x => max m x.high) c.high > 0 then
        round4 ((cs.foldl (fun m x => max m x.high) c.high -
            cs.foldl (fun m x => min m x.low) c.low) /
          cs.foldl (fun m x => max m x.high) c.high * 100)
      else 0) := rfl
  rw [hspread, hmax, hmin]
  constructor
  · intro h
    rw [if_pos h]
  · intro h
    rw [if_neg (not_lt.mpr h)]

/-- Witness for C8: a window with highs `10, 4` and lows `2, 1` spreads
`(10 - 1) / 10 * 100 = 90`. -/
theorem C8_get_spread_formula_witness : get_spread [⟨10, 2⟩, ⟨4, 1⟩] = 90 := by
  have h := (C8_get_spread_formula ⟨10, 2⟩ [⟨4, 1⟩] 10 1 (by decide) (by decide) (by decide)
    (by decide)).1 (by decide)
  rw [h]
  norm_num [round4, roundHalfEven]

/-! ## C1 — cross-exchange merge at the failing input -/

/-- C1 is a code bug: the code's own comment (line 70) and the spec demand
that a symbol present on only one exchange retain that side's full record,
but the `_binance` copy loop (lines 74-76) overwrites the `_bybit` copies
wholesale, NaNs included.  Evaluating the embedded merge at the failing
input — a bybit table with the single symbol `AAAUSDT` and an empty
binance table — shows the merged row keeps the summed volumes (100 + 0)
but loses every non-volume column to NaN instead of keeping bybit's
value 5. -/
theorem C1_bybit_only_row_loses_other_columns :
    ∃ m, combine_and_save_rotator_data ([] : List (ExchangeRow 1 ℚ)) bybitOnlyTable = [m]
      ∧ m.asset = "AAAUSDT"
      ∧ (∀ c, m.vol c = 100)
      ∧ (∀ c, m.other c = none) := by
  refine ⟨_, rfl, rfl, fun c => ?_, fun c => rfl⟩
  show (100 : ℚ) + 0 = 100
  norm_num

/-! ## C2 — publication pipeline atomicity -/

/-- A temp-then-rename publication with distinct temp and destination
paths never exposes a partial destination: before the rename the
destination still holds its previous content, and after the rename it
holds exactly the new complete serialization. -/
theorem tempRename_never_exposes_partial (fs : FS) (temp dest content : String)
    (hne : temp ≠ dest) :
    (∀ stage, stage ≠ PubStage.renamed →
      tempRenameState fs temp dest content stage dest = fs dest)
    ∧ tempRenameState fs temp dest content PubStage.renamed dest = some content := by
  constructor
  · intro stage hstage
    cases stage with
    | started => rfl
    | tempWritten =>
      show (if dest = temp then some content else fs dest) = fs dest
      rw [if_neg (fun h => hne h.symm)]
    | renamed => exact absurd rfl hstage
  · show (if dest = dest then some content else _) = some content
    rw [if_pos rfl]

/-- Every temp-then-rename write of the cycle uses a temp path distinct
from its destination (the `_temp` suffix). -/
theorem publicationPlan_temp_ne_dest (exchange_name temp dest : String)
    (hex : exchange_name = "binance" ∨ exchange_name = "bybit")
    (hmem : WriteOp.tempRename temp dest ∈ publicationPlan exchange_name) :
    temp ≠ dest := by
  rcases hex with rfl | rfl
  · have hplan : publicationPlan "binance" =
        [WriteOp.tempRename "/var/www/api/data/quantdatav2_binance_temp.json"
            "/var/www/api/data/quantdatav2_binance.json",
          WriteOp.tempRename "/var/www/api/data/whattotrade_binance_temp.json"
            "/var/www/api/data/whattotrade_binance.json",
          WriteOp.tempRename "/var/www/api/data/rotatorsymbols_binance_temp.json"
            "/var/www/api/data/rotatorsymbols_binance.json",
          WriteOp.direct "/var/www/api/data/negativefunding_binance.json",
          WriteOp.direct "/var/www/api/data/positivefunding_binance.json",
          WriteOp.direct "/var/www/api/data/total_historical_volume_binance.json"] := by
      decide
    rw [hplan] at hmem
    simp only [List.mem_cons, List.not_mem_nil, or_false] at hmem
    rcases hmem with h | h | h | h | h | h <;>
      first
        | (cases h; decide)
        | exact WriteOp.noConfusion h
  · have hplan : publicationPlan "bybit" =
        [WriteOp.tempRename "/var/www/api/data/quantdatav2_bybit_temp.json"
            "/var/www/api/data/quantdatav2_bybit.json",
          WriteOp.tempRename "/var/www/api/data/quantdatav2_temp.json"
            "/var/www/api/data/quantdatav2.json",
          WriteOp.tempRename "/var/www/api/data/whattotrade_bybit_temp.json"
            "/var/www/api/data/whattotrade_bybit.json",
          WriteOp.tempRename "/var/www/api/data/rotatorsymbols_bybit_temp.json"
            "/var/www/api/data/rotatorsymbols_bybit.json",
          WriteOp.direct "/var/www/api/data/rotatorsymbols.json",
          WriteOp.direct "/var/www/api/data/negativefunding_bybit.json",
          WriteOp.direct "/var/www/api/data/positivefunding_bybit.json",
          WriteOp.direct "/var/www/api/data/total_historical_volume_bybit.json"] := by
      decide
    rw [hplan] at hmem
    simp only [List.mem_cons, List.not_mem_nil, or_false] at hmem
    rcases hmem with h | h | h | h | h | h | h | h <;>
      first
        | (cases h; decide)
        | exact WriteOp.noConfusion h

/-- C2 (amended): of the eight artifact writes of a cycle, exactly the
primary table, the bybit legacy primary copy, the tradeable view and the
rotator view go through write-temp-then-rename — and each of those leaves
the destination's previous content untouched at every stage before the
rename and exactly the new serialization after it; the bybit legacy
rotator copy, the funding views and the historical-volume map are written
directly to their destination with no temp file. -/
theorem C2_publication_atomicity (exchange_name : String) (fs : FS) (content : String)
    (hex : exchange_name = "binance" ∨ exchange_name = "bybit") :
    (((publicationPlan exchange_name).filter WriteOp.isAtomic).map WriteOp.dest =
        [dataDir ++ "quantdatav2_" ++ exchange_name ++ ".json"]
          ++ (if exchange_name = "bybit" then [dataDir ++ "quantdatav2.json"] else [])
          ++ [dataDir ++ "whattotrade_" ++ exchange_name ++ ".json",
              dataDir ++ "rotatorsymbols_" ++ exchange_name ++ ".json"])
    ∧ (((publicationPlan exchange_name).filter (fun op => !op.isAtomic)).map WriteOp.dest =
        (if exchange_name = "bybit" then [dataDir ++ "rotatorsymbols.json"] else [])
          ++ [dataDir ++ "negativefunding_" ++ exchange_name ++ ".json",
              dataDir ++ "positivefunding_" ++ exchange_name ++ ".json",
              dataDir ++ "total_historical_volume_" ++ exchange_name ++ ".json"])
    ∧ (∀ temp dest, WriteOp.tempRename temp dest ∈ publicationPlan exchange_name →
        (∀ stage, stage ≠ PubStage.renamed →
          tempRenameState fs temp dest content stage dest = fs dest)
        ∧ tempRenameState fs temp dest content PubStage.renamed dest = some content) := by
  refine ⟨?_, ?_, ?_⟩
  · rcases hex with rfl | rfl <;> decide
  · rcases hex with rfl | rfl <;> decide
  · intro temp dest hmem
    exact tempRename_never_exposes_partial fs temp dest content
      (publicationPlan_temp_ne_dest exchange_name temp dest hex hmem)

/-- Counterexample for C2 as stated: not every artifact of the cycle is
published via temp-plus-rename — the bybit cycle writes the legacy rotator
copy, both funding views and the historical-volume map directly. -/
theorem C2_not_every_artifact_atomic :
    ((publicationPlan "bybit").all WriteOp.isAtomic) = false := by decide

/-- Witness for C2: the non-atomic (direct) writes of the bybit cycle are
exactly the legacy rotator copy, the two funding views and the
historical-volume map. -/
theorem C2_publication_atomicity_witness :
    ((publicationPlan "bybit").filter (fun op => !op.isAtomic)).map WriteOp.dest =
      ["/var/www/api/data/rotatorsymbols.json",
        "/var/www/api/data/negativefunding_bybit.json",
        "/var/www/api/data/positivefunding_bybit.json",
        "/var/www/api/data/total_historical_volume_bybit.json"] := by
  have h := (C2_publication_atomicity "bybit" (fun _ => none) "" (Or.inr rfl)).2.1
  exact h.trans (by decide)

end ScraperV3
